import Mathlib

/-!
Verification development for the spore.net repository.

Shallow embedding of:
* the metabarcode CSV ingestion pipeline (`parseCSV`, `parseCoordinates`,
  `parseDate`, `handleUpload` from the upload component),
* the session authorization middleware (`roleHierarchy`, `requireAuth`),
* the login rate limiter and login route (`checkRateLimit`, `login`).

JavaScript strings are modelled as Lean `String`; the JS string operations
used by the source (`split`, `trim`, `toLowerCase`, `replace`, `padStart`,
`parseInt`, `parseFloat`) are re-implemented structurally below so that all
definitions evaluate inside the kernel.  A JS value that may be `undefined`
is modelled as an `Option`.  The external data store is modelled as explicit
in-memory lists threaded through the functions; individual store calls are
modelled as always succeeding (the source treats each call as atomic and the
claims under study do not involve store-level failures).
-/

/-- Split a character list at every occurrence of `sep` (JS `String.split`
with a single-character separator: `"".split(sep) = [""]`). -/
def splitCharAux (sep : Char) : List Char → List Char → List (List Char)
  | [], acc => [acc.reverse]
  | c :: cs, acc =>
    if c = sep then acc.reverse :: splitCharAux sep cs []
    else splitCharAux sep cs (c :: acc)

/-- JS `s.split(sep)` for a one-character separator. -/
def jsSplit (sep : Char) (s : String) : List String :=
  (splitCharAux sep s.data []).map (fun cs => ⟨cs⟩)

/-- JS `s.trim()` (over the whitespace characters that occur in the data). -/
def jsTrim (s : String) : String :=
  ⟨((s.data.dropWhile Char.isWhitespace).reverse.dropWhile Char.isWhitespace).reverse⟩

/-- JS `s.toLowerCase()` for ASCII strings. -/
def jsToLower (s : String) : String :=
  ⟨s.data.map Char.toLower⟩

/-- Numeric value of a list of decimal digits. -/
def natOfDigits (ds : List Char) : Nat :=
  ds.foldl (fun a c => a * 10 + (c.toNat - 48)) 0

/-- Numeric value of a list of hexadecimal digits. -/
def natOfHexDigits (ds : List Char) : Nat :=
  ds.foldl (fun a c =>
    a * 16 +
      (if c.isDigit then c.toNat - 48
       else if 'a' ≤ c ∧ c ≤ 'f' then c.toNat - 87
       else c.toNat - 55)) 0

/-- Hexadecimal digit test. -/
def isHexDigit (c : Char) : Bool :=
  c.isDigit || ('a' ≤ c && c ≤ 'f') || ('A' ≤ c && c ≤ 'F')

/-- Consume an optional leading sign; returns (negative?, rest). -/
def readSign : List Char → Bool × List Char
  | '-' :: r => (true, r)
  | '+' :: r => (false, r)
  | cs => (false, cs)

/-- JS `parseInt(s)` with no radix argument: skip leading whitespace, read an
optional sign, use hexadecimal on a `0x`/`0X` prefix and decimal otherwise,
consume the longest digit prefix; `none` models `NaN` (no digit found). -/
def jsParseInt (s : String) : Option Int :=
  let cs := s.data.dropWhile Char.isWhitespace
  let (neg, cs) := readSign cs
  let signed : Nat → Int := fun n => if neg then -(n : Int) else (n : Int)
  match cs with
  | '0' :: x :: r =>
    if x = 'x' ∨ x = 'X' then
      let ds := r.takeWhile isHexDigit
      if ds.isEmpty then none else some (signed (natOfHexDigits ds))
    else
      some (signed (natOfDigits (('0' :: x :: r).takeWhile Char.isDigit)))
  | _ =>
    let ds := cs.takeWhile Char.isDigit
    if ds.isEmpty then none else some (signed (natOfDigits ds))

/-- JS `parseInt` applied to a possibly-`undefined` value
(`parseInt(undefined)` is `NaN`). -/
def jsParseIntOpt : Option String → Option Int
  | none => none
  | some s => jsParseInt s

/-- A JS number as produced by `parseFloat`: either `m * 10 ^ k` in exact
scientific form, or an infinity.  (`none` at the use sites models `NaN`.) -/
inductive JSNum where
  | sci (m : Int) (k : Int)
  | inf (neg : Bool)
deriving DecidableEq

/-- JS `parseFloat(s)`: skip leading whitespace, optional sign, `Infinity`,
or a decimal literal with optional fraction and exponent; `none` models
`NaN`. -/
def jsParseFloat (s : String) : Option JSNum :=
  let cs := s.data.dropWhile Char.isWhitespace
  let (neg, cs) := readSign cs
  match cs with
  | 'I' :: 'n' :: 'f' :: 'i' :: 'n' :: 'i' :: 't' :: 'y' :: _ => some (.inf neg)
  | _ =>
    let ip := cs.takeWhile Char.isDigit
    let cs1 := cs.dropWhile Char.isDigit
    let (fp, cs2) :=
      match cs1 with
      | '.' :: r => (r.takeWhile Char.isDigit, r.dropWhile Char.isDigit)
      | _ => ([], cs1)
    if ip.isEmpty ∧ fp.isEmpty then none
    else
      let mant : Int := if neg then -(natOfDigits (ip ++ fp) : Int) else (natOfDigits (ip ++ fp) : Int)
      let ex : Int :=
        match cs2 with
        | e :: r =>
          if e = 'e' ∨ e = 'E' then
            let (eneg, r') := readSign r
            let ed := r'.takeWhile Char.isDigit
            if ed.isEmpty then 0
            else if eneg then -(natOfDigits ed : Int) else (natOfDigits ed : Int)
          else 0
        | [] => 0
      some (.sci mant (ex - (fp.length : Int)))

/-- JS `s.padStart(2, '0')`. -/
def padStart2 (s : String) : String :=
  if s.length < 2 then ⟨List.replicate (2 - s.length) '0' ++ s.data⟩ else s

/-- Render a possibly-`undefined` JS string as a template literal does
(`undefined` prints as `"undefined"`). -/
def optStr : Option String → String
  | some s => s
  | none => "undefined"

/-! ## CSV parsing (upload component `parseCSV`, `parseCoordinates`, `parseDate`) -/

/-- A parsed CSV row.  Each field is `some` when the header row contains the
column name (the JS code assigns `row[header] = values[index]?.trim() || ''`
for every header) and `none` (JS `undefined`) when it does not. -/
structure CSVRow where
  sample_id : Option String
  start_name : Option String
  start_point : Option String
  end_name : Option String
  end_point : Option String
  species : Option String
  read_count : Option String
  collection_date : Option String
deriving DecidableEq

/-- The all-`undefined` row (used only as an unreachable default). -/
def defaultRow : CSVRow := ⟨none, none, none, none, none, none, none, none⟩

/-- Index of the last occurrence of `f` in a header list (the JS loop
assigns `row[header]` for every header in order, so a duplicated column name
ends up bound to its last occurrence). -/
def lastIdxAux (f : String) : List String → Nat → Option Nat
  | [], _ => none
  | h :: t, i =>
    if h == f then
      match lastIdxAux f t (i + 1) with
      | some j => some j
      | none => some i
    else lastIdxAux f t (i + 1)

/-- Last index of a column name in the header list. -/
def lastIdx (headers : List String) (f : String) : Option Nat :=
  lastIdxAux f headers 0

/-- Field extraction: `row[header] = values[index]?.trim() || ''`. -/
def getField (headers values : List String) (f : String) : Option String :=
  (lastIdx headers f).map (fun i => jsTrim (values.getD i ""))

/-- Build one `CSVRow` from the header list and the comma-split values. -/
def mkRow (headers values : List String) : CSVRow :=
  { sample_id := getField headers values "sample_id"
    start_name := getField headers values "start_name"
    start_point := getField headers values "start_point"
    end_name := getField headers values "end_name"
    end_point := getField headers values "end_point"
    species := getField headers values "species"
    read_count := getField headers values "read_count"
    collection_date := getField headers values "collection_date" }

/-- Non-blank lines of the upload (`text.split('\n').filter(l => l.trim())`). -/
def csvLines (text : String) : List String :=
  (jsSplit '\n' text).filter (fun l => jsTrim l ≠ "")

/-- The trimmed header names (`lines[0].split(',').map(h => h.trim())`). -/
def csvHeaders (text : String) : List String :=
  (jsSplit ',' ((csvLines text).headD "")).map jsTrim

/-- The data-line loop of `parseCSV`: a line whose comma-split value count
is below the header count is skipped (`continue`), every other line becomes
a row. -/
def parseCSVRows (headers : List String) : List String → List CSVRow
  | [] => []
  | line :: rest =>
    let values := jsSplit ',' line
    if values.length < headers.length then parseCSVRows headers rest
    else mkRow headers values :: parseCSVRows headers rest

/-- `parseCSV` from the upload component.  Note that it splits every line on
every comma: quoted fields are not recognised. -/
def parseCSV (text : String) : List CSVRow :=
  if (csvLines text).length < 2 then []
  else parseCSVRows (csvHeaders text) (csvLines text).tail

/-- `parseCoordinates`: strip all double/single quotes, trim, split on
commas, parse both parts with `parseFloat`; succeeds only with exactly two
non-`NaN` parts. -/
def parseCoordinates (s : String) : Option (JSNum × JSNum) :=
  let cleaned := jsTrim ⟨s.data.filter (fun c => ¬ (c = Char.ofNat 34 ∨ c = Char.ofNat 39))⟩
  let parts := (jsSplit ',' cleaned).map (fun p => jsParseFloat (jsTrim p))
  match parts with
  | [some a, some b] => some (a, b)
  | _ => none

/-- `parseDate`: `DD/MM/YYYY` becomes `YYYY-MM-DD` (months/days padded);
anything else is returned unchanged. -/
def parseDate (s : String) : String :=
  match jsSplit '/' s with
  | [day, month, year] => year ++ "-" ++ padStart2 month ++ "-" ++ padStart2 day
  | _ => s

/-! ## Store model and the upload pipeline (`handleUpload`) -/

/-- A `sampling_routes` row as inserted by the pipeline. -/
structure Route where
  id : Nat
  sample_id : Option String
  start_name : Option String
  end_name : Option String
  start_latitude : JSNum
  start_longitude : JSNum
  end_latitude : JSNum
  end_longitude : JSNum
  collection_date : String
  created_by : Option String
deriving DecidableEq

/-- A `sample_uploads` audit row. -/
structure UploadRec where
  route_id : Nat
  uploaded_by : Option String
  filename : String
  file_size : Nat
  row_count : Nat
  notes : String
deriving DecidableEq

/-- A `pathogen_detections` row. -/
structure Detection where
  route_id : Nat
  pathogen_species_id : Nat
  read_count : Int
deriving DecidableEq

/-- A `pathogen_species` lookup row. -/
structure Species where
  id : Nat
  species_name : String
deriving DecidableEq

/-- The external data store as seen by the pipeline.  `nextRouteId` models
the store-generated primary key of a newly inserted route. -/
structure Store where
  routes : List Route
  uploads : List UploadRec
  detections : List Detection
  species : List Species
  nextRouteId : Nat
deriving DecidableEq

/-- The empty store used by the concrete scenarios. -/
def emptyStore : Store := ⟨[], [], [], [], 1⟩

/-- First-seen-order key list (JS `Map` insertion order). -/
def keysAux (seen : List (Option String)) : List (Option String) → List (Option String)
  | [] => []
  | k :: ks =>
    if k ∈ seen then keysAux seen ks
    else k :: keysAux (k :: seen) ks

/-- The distinct `sample_id` keys of the parsed rows, in first-seen order. -/
def sampleKeys (rows : List CSVRow) : List (Option String) :=
  keysAux [] (rows.map (·.sample_id))

/-- Group rows by `sample_id`, preserving first-seen key order and row
order within each group (the JS `Map`-building loop). -/
def sampleGroups (rows : List CSVRow) : List (Option String × List CSVRow) :=
  (sampleKeys rows).map (fun k => (k, rows.filter (fun r => r.sample_id == k)))

/-- Upsert on conflict `(route_id, pathogen_species_id)`: overwrite the
`read_count` of a matching row, else append a new row. -/
def upsertDetection (routeId pid : Nat) (rc : Int) (ds : List Detection) : List Detection :=
  if ds.any (fun d => d.route_id == routeId && d.pathogen_species_id == pid) then
    ds.map (fun d =>
      if d.route_id == routeId && d.pathogen_species_id == pid then
        { d with read_count := rc }
      else d)
  else ds ++ [⟨routeId, pid, rc⟩]

/-- One iteration of the detection loop (lines 186–223 of the upload
component): parse `read_count`, resolve the species by exact name, upsert
the detection.  Returns the new store, the error string pushed (if any) and
whether `detectionsAdded` was incremented.  The store's upsert is modelled
as always succeeding, so the `detectionError` branch of the source has no
counterpart here. -/
def processDetection (key : Option String) (routeId : Nat) (row : CSVRow) (st : Store) :
    Store × Option String × Bool :=
  match jsParseIntOpt row.read_count with
  | none => (st, some (optStr key ++ ": Invalid read count for " ++ optStr row.species), false)
  | some rc =>
    match st.species.filter (fun sp =>
        match row.species with
        | some s => sp.species_name == s
        | none => false) with
    | [p] =>
      ({ st with detections := upsertDetection routeId p.id rc st.detections }, none, true)
    | _ => (st, some (optStr key ++ ": Unknown species " ++ optStr row.species), false)

/-- The detection loop over a whole group, accumulating the error list and
the `detectionsAdded` counter. -/
def processDetections (key : Option String) (routeId : Nat) :
    List CSVRow → Store → List String → Nat → Store × List String × Nat
  | [], st, errs, da => (st, errs, da)
  | r :: rs, st, errs, da =>
    let (st', e, added) := processDetection key routeId r st
    processDetections key routeId rs st' (errs ++ e.toList) (da + if added then 1 else 0)

/-- Process one sample group (the body of the `for (const [sampleId,
sampleRows] of sampleGroups)` loop).  `.inl` carries (errors pushed, routes
newly created, detections added, new store); `.inr` models the `TypeError`
thrown when a needed field is JS `undefined` (missing column), which the
outer `try/catch` turns into the `Upload failed` result.  Route and audit
inserts are modelled as always succeeding, so the `routeError` branch of
the source has no counterpart here. -/
def processGroup (filename : String) (fileSize : Nat) (userId : Option String)
    (key : Option String) (grows : List CSVRow) (st : Store) :
    (List String × Nat × Nat × Store) ⊕ String :=
  let firstRow := grows.headD defaultRow
  match firstRow.start_point, firstRow.end_point with
  | some sp, some ep =>
    match parseCoordinates sp, parseCoordinates ep with
    | some sc, some ec =>
      match firstRow.collection_date with
      | some cd =>
        let collectionDate := parseDate cd
        let existing : List Route :=
          match key with
          | some sid => st.routes.filter (fun r => r.sample_id == some sid)
          | none => []
        let (routeId, rpDelta, st1) : Nat × Nat × Store :=
          match existing with
          | [r] => (r.id, 0, st)
          | _ =>
            (st.nextRouteId, 1,
             { st with
                routes := st.routes ++
                  [⟨st.nextRouteId, key, firstRow.start_name, firstRow.end_name,
                    sc.1, sc.2, ec.1, ec.2, collectionDate, userId⟩]
                nextRouteId := st.nextRouteId + 1 })
        let st2 :=
          { st1 with
              uploads := st1.uploads ++
                [⟨routeId, userId, filename, fileSize, grows.length,
                  "Uploaded via metabarcode CSV upload"⟩] }
        let (st3, errs, da) := processDetections key routeId grows st2 [] 0
        .inl (errs, rpDelta, da, st3)
      | none => .inr "Cannot read properties of undefined"
    | _, _ => .inl ([optStr key ++ ": Invalid coordinates"], 0, 0, st)
  | _, _ => .inr "Cannot read properties of undefined"

/-- Fold `processGroup` over all groups, accumulating errors and counters;
`.inr` propagates a thrown `TypeError` together with the store at the point
of the throw (earlier store writes persist across the catch). -/
def processGroupsAux (filename : String) (fileSize : Nat) (userId : Option String) :
    List (Option String × List CSVRow) → List String × Nat × Nat × Store →
    (List String × Nat × Nat × Store) ⊕ (String × Store)
  | [], acc => .inl acc
  | (k, gr) :: rest, (errs, rp, da, st) =>
    match processGroup filename fileSize userId k gr st with
    | .inl (gerrs, grp, gda, st') =>
      processGroupsAux filename fileSize userId rest (errs ++ gerrs, rp + grp, da + gda, st')
    | .inr msg => .inr (msg, st)

/-- The structured result returned to the user. -/
structure UploadResult where
  success : Bool
  message : String
  routesProcessed : Nat
  detectionsAdded : Nat
  errors : List String
deriving DecidableEq

/-- `handleUpload` from the upload component: parse, group, process each
group, and return the summary together with the updated store. -/
def handleUpload (text filename : String) (fileSize : Nat) (userId : Option String)
    (st : Store) : UploadResult × Store :=
  let rows := parseCSV text
  if rows.isEmpty then
    (⟨false, "No valid data found in CSV", 0, 0, ["CSV file is empty or invalid"]⟩, st)
  else
    let groups := sampleGroups rows
    match processGroupsAux filename fileSize userId groups ([], 0, 0, st) with
    | .inl (errs, rp, da, st') =>
      (⟨decide (errs.length < rows.length),
        "Processed " ++ toString groups.length ++ " samples", rp, da, errs⟩, st')
    | .inr (msg, st') => (⟨false, "Upload failed", 0, 0, [msg]⟩, st')

/-! ## Session authorization (`roleHierarchy`, `requireAuth`) -/

/-- The three user roles. -/
inductive UserRole where
  | viewer
  | sampler
  | admin
deriving DecidableEq

/-- `roleHierarchy`: viewer 1, sampler 2, admin 3. -/
def roleHierarchy : UserRole → Nat
  | .viewer => 1
  | .sampler => 2
  | .admin => 3

/-- A `sessions` row; `expires_at` and the clock are both epoch
milliseconds. -/
structure SessionRec where
  token : String
  user_id : String
  expires_at : Int
deriving DecidableEq

/-- A `users` row (the columns read by `requireAuth` and the login route). -/
structure UserRec where
  id : String
  email : String
  role : UserRole
  is_active : Bool
  password_hash : String
  full_name : String
  last_login : Option Int
deriving DecidableEq

/-- The store tables consumed by the auth code. -/
structure AuthDB where
  sessions : List SessionRec
  users : List UserRec
deriving DecidableEq

/-- The outcome of `requireAuth`: either the resolved user or a JSON error
response with its HTTP status. -/
inductive AuthResult where
  | ok (id email : String) (role : UserRole)
  | err (status : Nat) (msg : String)
deriving DecidableEq

/-- `requireAuth` from the middleware: falsy cookie → 401; token looked up
with `.single()` (exactly one matching row, else 401); a session whose
`expires_at` is strictly before `now` is deleted (lazy cleanup) and yields
401 `Session expired`; a missing or inactive joined user yields 401; an
insufficient role rank yields 403 `Forbidden`; otherwise the user is
returned.  The possibly-updated session table is returned alongside. -/
def requireAuth (db : AuthDB) (cookie : Option String) (now : Int)
    (requiredRole : UserRole := .viewer) : AuthResult × AuthDB :=
  let tok := cookie.getD ""
  if tok = "" then (.err 401 "Unauthorized", db)
  else
    match db.sessions.filter (fun s => s.token == tok) with
    | [s] =>
      if s.expires_at < now then
        (.err 401 "Session expired",
         { db with sessions := db.sessions.filter (fun x => x.token != tok) })
      else
        match db.users.filter (fun u => u.id == s.user_id) with
        | [u] =>
          if u.is_active then
            if roleHierarchy u.role < roleHierarchy requiredRole then
              (.err 403 "Forbidden", db)
            else (.ok u.id u.email u.role, db)
          else (.err 401 "Unauthorized", db)
        | _ => (.err 401 "Unauthorized", db)
    | _ => (.err 401 "Unauthorized", db)

/-! ## Login rate limiter and login route (`checkRateLimit`, `POST`) -/

/-- One rate-limiter record: attempts so far and the window reset time. -/
structure RLRec where
  count : Nat
  resetAt : Int
deriving DecidableEq

/-- The in-memory `loginAttempts` map, keyed by client address. -/
def RLState := List (String × RLRec)
deriving instance DecidableEq for RLState

/-- `loginAttempts.get(ip)`. -/
def rlLookup (ip : String) (st : RLState) : Option RLRec :=
  (List.find? (fun p => p.1 == ip) st).map (·.2)

/-- `loginAttempts.set(ip, r)` (JS `Map` keys are unique: replace). -/
def rlSet (ip : String) (r : RLRec) : RLState → RLState
  | [] => [(ip, r)]
  | p :: ps => if p.1 == ip then (ip, r) :: ps else p :: rlSet ip r ps

/-- `MAX_ATTEMPTS`. -/
def MAX_ATTEMPTS : Nat := 10

/-- `WINDOW_MS` (15 minutes). -/
def WINDOW_MS : Int := 15 * 60 * 1000

/-- `checkRateLimit`: no record or an elapsed window starts a fresh window
with count 1 and allows; a full window (count ≥ 10) denies without
mutation; otherwise the count is incremented and the attempt allowed. -/
def checkRateLimit (ip : String) (now : Int) (st : RLState) : Bool × RLState :=
  match rlLookup ip st with
  | none => (true, rlSet ip ⟨1, now + WINDOW_MS⟩ st)
  | some r =>
    if r.resetAt < now then (true, rlSet ip ⟨1, now + WINDOW_MS⟩ st)
    else if MAX_ATTEMPTS ≤ r.count then (false, st)
    else (true, rlSet ip ⟨r.count + 1, r.resetAt⟩ st)

/-- The outcome of the login `POST` route. -/
inductive LoginResult where
  | rateLimited
  | badRequest
  | invalidCredentials
  | success (id email : String) (role : UserRole) (fullName : String) (token : String)
deriving DecidableEq

/-- The login `POST` route: rate-limit check first (429 before any
credential work), then require non-empty email and password, look up the
active user by lowercased email with `.single()`, compare the password
against the stored hash via the bcrypt collaborator `compare`, and on
success insert a session expiring 24h later, update `last_login`, and
return the user plus the freshly minted `token` (the random token is a
parameter here).  Returns the result with the updated tables and limiter
state. -/
def login (db : AuthDB) (rl : RLState) (ip : String) (email password : Option String)
    (compare : String → String → Bool) (token : String) (now : Int) :
    LoginResult × AuthDB × RLState :=
  let (allowed, rl') := checkRateLimit ip now rl
  if ¬ allowed then (.rateLimited, db, rl')
  else if email.getD "" = "" ∨ password.getD "" = "" then (.badRequest, db, rl')
  else
    match db.users.filter (fun u => u.email == jsToLower (email.getD "") && u.is_active) with
    | [u] =>
      if compare (password.getD "") u.password_hash then
        (.success u.id u.email u.role u.full_name token,
         { db with
            sessions := db.sessions ++ [⟨token, u.id, now + 24 * 60 * 60 * 1000⟩]
            users := db.users.map (fun x => if x.id == u.id then { x with last_login := some now } else x) },
         rl')
      else (.invalidCredentials, db, rl')
    | _ => (.invalidCredentials, db, rl')

/-- Run a sequence of bare rate-limit checks (one per attempt time) from a
given limiter state, collecting the per-attempt outcomes. -/
def rlRun (ip : String) : List Int → RLState → List Bool × RLState
  | [], st => ([], st)
  | t :: ts, st =>
    let (b, st') := checkRateLimit ip t st
    let (bs, st'') := rlRun ip ts st'
    (b :: bs, st'')

/-! ## Concrete inputs used by the claims -/

/-- The expected CSV header (also displayed by the component's own
"Expected CSV Format" panel). -/
def csvHdr : String :=
  "sample_id,start_name,start_point,end_name,end_point,species,read_count,collection_date"

/-- The single concrete data row of the spec's concrete scenario, with its
quoted coordinate pairs. -/
def csvC1 : String :=
  csvHdr ++
    "\n25_01,Perth,\"-31.95086, 115.86223\",Bindoon,\"-31.39306, 116.09878\",Puccinia striiformis,1234,30/07/2025"

/-- A two-group CSV: group `25_01` with unparseable coordinates, group
`25_02` exactly the spec's valid concrete row. -/
def csvC6 : String :=
  csvHdr ++
    "\n25_01,Perth,xx,Bindoon,yy,Puccinia striiformis,10,30/07/2025" ++
    "\n25_02,Perth,\"-31.95086, 115.86223\",Bindoon,\"-31.39306, 116.09878\",Puccinia striiformis,1234,30/07/2025"

/-- An otherwise-empty store whose species lookup table contains
`Puccinia striiformis`. -/
def storePS : Store := ⟨[], [], [], [⟨1, "Puccinia striiformis"⟩], 1⟩

/-- A data row with eight empty fields: `sample_id` and `species` are both
empty, yet the row survives parsing. -/
def csvC5a : String := csvHdr ++ "\n,,,,,,,"

/-- A data row that HAS a `sample_id` and a `species` but only seven
comma-separated values: it is discarded because the header has eight. -/
def csvC5b : String := csvHdr ++ "\n25_01,a,b,c,d,Puccinia striiformis,7"

/-! ## C1 — the concrete ingestion scenario -/

/-- C1: ingesting the spec's concrete CSV row (quoted coordinates, matching
header, species present in the lookup table, empty store) does NOT produce
`routesProcessed = 1, detectionsAdded = 1, errors = []` with a persisted
route and detection.  Because `parseCSV` splits the line at every comma,
the quoted coordinate fields are shattered across columns, `parseCoordinates`
receives the comma-free fragment `"-31.95086` and fails, and the whole group
is skipped with the single error `25_01: Invalid coordinates`; the store is
left untouched.  This contradicts the component's own displayed expected
format, so the code, not the claim, is at fault. -/
theorem c1_concrete_upload_fails :
    handleUpload csvC1 "f.csv" 100 (some "u1") storePS =
      (⟨false, "Processed 1 samples", 0, 0, ["25_01: Invalid coordinates"]⟩, storePS) := by
  decide

/-! ## C2 — double upload / audit rows -/

/-- C2: uploading the same valid CSV twice does NOT append one `SampleUpload`
audit row per sample group per upload.  The file has exactly one sample
group, yet after the first upload the audit table is still empty (the group
is skipped at the coordinate check before the audit insert), and it remains
empty after the second upload; the store is completely unchanged by both
uploads. -/
theorem c2_double_upload_no_audit :
    (sampleGroups (parseCSV csvC1)).length = 1 ∧
    (handleUpload csvC1 "f.csv" 100 (some "u1") storePS).2 = storePS ∧
    (handleUpload csvC1 "f.csv" 100 (some "u1")
        ((handleUpload csvC1 "f.csv" 100 (some "u1") storePS).2)).2.uploads = [] := by
  decide

/-! ## C6 — partial failure isolation -/

/-- C6: a CSV with one bad-coordinate group and one group in the spec's own
valid format does NOT report exactly one coordinate error while processing
the second group: both groups fail the coordinate check (the comma split
destroys the quoted coordinates of the "valid" group too), two errors are
reported, and no route, audit row or detection is created for either
group. -/
theorem c6_valid_group_not_processed :
    handleUpload csvC6 "f.csv" 100 (some "u1") storePS =
      (⟨false, "Processed 2 samples", 0, 0,
        ["25_01: Invalid coordinates", "25_02: Invalid coordinates"]⟩, storePS) := by
  decide

/-! ## C3 — role hierarchy authorization -/

/-- Computation lemma: under a found, unexpired session of an active user,
`requireAuth` reduces to the bare role-rank comparison. -/
theorem requireAuth_reduces (db : AuthDB) (tok : String) (req : UserRole)
    (now : Int) (s : SessionRec) (u : UserRec)
    (htok : tok ≠ "")
    (hs : db.sessions.filter (fun x => x.token == tok) = [s])
    (hexp : ¬ s.expires_at < now)
    (hu : db.users.filter (fun x => x.id == s.user_id) = [u])
    (hact : u.is_active = true) :
    (requireAuth db (some tok) now req).1 =
      (if roleHierarchy u.role < roleHierarchy req then AuthResult.err 403 "Forbidden"
       else .ok u.id u.email u.role) := by
  simp only [requireAuth, Option.getD, if_neg htok, hs, hu, if_neg hexp, hact, if_true]
  split <;> rfl

/-- C3: with a non-empty token matching exactly one stored session, the
session not expired, and the joined user active, `requireAuth` succeeds
(returning the user's id, email and role) iff
`roleHierarchy requiredRole ≤ roleHierarchy actualRole`, and an
insufficient rank fails with 403 `Forbidden` (not 401); the ranks are
viewer 1 < sampler 2 < admin 3. -/
theorem c3_requireAuth_role_iff (db : AuthDB) (tok : String) (req : UserRole)
    (now : Int) (s : SessionRec) (u : UserRec)
    (htok : tok ≠ "")
    (hs : db.sessions.filter (fun x => x.token == tok) = [s])
    (hexp : ¬ s.expires_at < now)
    (hu : db.users.filter (fun x => x.id == s.user_id) = [u])
    (hact : u.is_active = true) :
    ((requireAuth db (some tok) now req).1 = .ok u.id u.email u.role ↔
        roleHierarchy req ≤ roleHierarchy u.role) ∧
      (roleHierarchy u.role < roleHierarchy req →
        (requireAuth db (some tok) now req).1 = .err 403 "Forbidden") ∧
      roleHierarchy .viewer = 1 ∧ roleHierarchy .sampler = 2 ∧ roleHierarchy .admin = 3 := by
  have hc := requireAuth_reduces db tok req now s u htok hs hexp hu hact
  rw [hc]
  by_cases hlt : roleHierarchy u.role < roleHierarchy req
  · rw [if_pos hlt]
    refine ⟨⟨fun h => absurd h (by simp), fun h => absurd hlt (by omega)⟩, fun _ => rfl, rfl, rfl, rfl⟩
  · rw [if_neg hlt]
    exact ⟨⟨fun _ => by omega, fun _ => rfl⟩, fun h => absurd h hlt, rfl, rfl, rfl⟩

/-- Witness for C3: a concrete store where a `sampler` requests a
`viewer`-gated resource and is authorized — instantiating the theorem. -/
theorem c3_witness :
    (requireAuth ⟨[⟨"tok", "u1", 200⟩],
        [⟨"u1", "e@x", .sampler, true, "h", "N", none⟩]⟩ (some "tok") 100 .viewer).1 =
      .ok "u1" "e@x" .sampler := by
  exact (c3_requireAuth_role_iff ⟨[⟨"tok", "u1", 200⟩],
      [⟨"u1", "e@x", .sampler, true, "h", "N", none⟩]⟩ "tok" .viewer 100
      ⟨"tok", "u1", 200⟩ ⟨"u1", "e@x", .sampler, true, "h", "N", none⟩
      (by decide) (by decide) (by decide) (by decide) (by decide)).1.mpr (by decide)

/-! ## C4 — expired-session cleanup -/

/-- Helper: deleting all sessions with a token leaves no session with that
token behind. -/
theorem filter_token_after_delete (l : List SessionRec) (tok : String) :
    (l.filter (fun x => x.token != tok)).filter (fun x => x.token == tok) = [] := by
  induction l with
  | nil => rfl
  | cons a t ih =>
    by_cases h : a.token == tok <;>
      simp [List.filter, h, bne, ih]

/-- C4 counterexample: the claim quantifies over sessions with
`expires_at <= now()`, but at the boundary `expires_at = now` the code's
strict comparison (`new Date(session.expires_at) < new Date()`) treats the
session as still valid: authorization succeeds and nothing is deleted,
instead of failing with `SessionExpired` and removing the record. -/
theorem c4_boundary_counterexample :
    ((100 : Int) ≤ 100) ∧
    requireAuth ⟨[⟨"tok", "u1", 100⟩], [⟨"u1", "e@x", .admin, true, "h", "N", none⟩]⟩
        (some "tok") 100 .viewer =
      (.ok "u1" "e@x" .admin,
       ⟨[⟨"tok", "u1", 100⟩], [⟨"u1", "e@x", .admin, true, "h", "N", none⟩]⟩) := by
  decide

/-- C4 (amended): for every session token found in the store with
`expires_at` strictly earlier than `now`, authorization deletes the session
record and fails with `Session expired`; a subsequent authorization with
the same token (at any time) fails with plain 401 `Unauthorized` and leaves
the store unchanged — no second delete happens. -/
theorem c4_expired_session_cleanup (db : AuthDB) (tok : String) (req req2 : UserRole)
    (now now2 : Int) (s : SessionRec)
    (htok : tok ≠ "")
    (hs : db.sessions.filter (fun x => x.token == tok) = [s])
    (hexp : s.expires_at < now) :
    requireAuth db (some tok) now req =
      (.err 401 "Session expired",
       ⟨db.sessions.filter (fun x => x.token != tok), db.users⟩) ∧
    requireAuth ⟨db.sessions.filter (fun x => x.token != tok), db.users⟩
        (some tok) now2 req2 =
      (.err 401 "Unauthorized",
       ⟨db.sessions.filter (fun x => x.token != tok), db.users⟩) := by
  constructor
  · simp only [requireAuth, Option.getD, if_neg htok, hs, if_pos hexp]
  · simp only [requireAuth, Option.getD, if_neg htok, filter_token_after_delete]

/-- Witness for C4 (amended): a concrete expired session is deleted and the
retry is rejected without a further delete — instantiating the theorem. -/
theorem c4_witness :
    requireAuth ⟨[⟨"tok", "u1", 100⟩], [⟨"u1", "e@x", .admin, true, "h", "N", none⟩]⟩
        (some "tok") 200 .viewer =
      (.err 401 "Session expired",
       ⟨[], [⟨"u1", "e@x", .admin, true, "h", "N", none⟩]⟩) ∧
    requireAuth ⟨[], [⟨"u1", "e@x", .admin, true, "h", "N", none⟩]⟩ (some "tok") 300 .viewer =
      (.err 401 "Unauthorized", ⟨[], [⟨"u1", "e@x", .admin, true, "h", "N", none⟩]⟩) := by
  have h := c4_expired_session_cleanup
    ⟨[⟨"tok", "u1", 100⟩], [⟨"u1", "e@x", .admin, true, "h", "N", none⟩]⟩
    "tok" .viewer .viewer 200 300 ⟨"tok", "u1", 100⟩ (by decide) (by decide) (by decide)
  exact h

/-! ## C5 — which rows does parsing discard? -/


/-- C5 counterexample: a row with empty `sample_id` and `species` is NOT
discarded — it is kept, forms a group keyed by the empty string, and even
produces an error string during upload — while a row that has both a
`sample_id` and a `species` but fewer fields than the header IS silently
discarded. -/
theorem c5_counterexample :
    (parseCSV csvC5a).length = 1 ∧
    ((parseCSV csvC5a).headD defaultRow).sample_id = some "" ∧
    ((parseCSV csvC5a).headD defaultRow).species = some "" ∧
    sampleGroups (parseCSV csvC5a) = [(some "", parseCSV csvC5a)] ∧
    (handleUpload csvC5a "f.csv" 10 none emptyStore).1.errors = [": Invalid coordinates"] ∧
    parseCSV csvC5b = [] := by
  decide

/-- Helper: the data-line loop keeps exactly the lines whose comma-split
value count reaches the header count. -/
theorem parseCSVRows_eq_filter_map (headers : List String) (ls : List String) :
    parseCSVRows headers ls =
      (ls.filter (fun l => headers.length ≤ (jsSplit ',' l).length)).map
        (fun l => mkRow headers (jsSplit ',' l)) := by
  induction ls with
  | nil => rfl
  | cons l t ih =>
    simp only [parseCSVRows]
    by_cases h : (jsSplit ',' l).length < headers.length
    · have h' : ¬ headers.length ≤ (jsSplit ',' l).length := by omega
      rw [if_pos h]
      simp [List.filter_cons, h', ih]
    · have h' : headers.length ≤ (jsSplit ',' l).length := by omega
      rw [if_neg h]
      simp [List.filter_cons, h', ih]

/-- Helper: a key that occurs in the list and is not yet seen appears in
the first-seen key list. -/
theorem keysAux_complete (l : List (Option String)) :
    ∀ seen k, k ∈ l → k ∉ seen → k ∈ keysAux seen l := by
  induction l with
  | nil => intro seen k h; cases h
  | cons a t ih =>
    intro seen k hk hseen
    simp only [keysAux]
    by_cases ha : a ∈ seen
    · rw [if_pos ha]
      rcases List.mem_cons.mp hk with rfl | hmem
      · exact absurd ha hseen
      · exact ih seen k hmem hseen
    · rw [if_neg ha]
      rcases List.mem_cons.mp hk with rfl | hmem
      · exact List.mem_cons_self _ _
      · by_cases hak : k = a
        · subst hak; exact List.mem_cons_self _ _
        · exact List.mem_cons_of_mem _
            (ih (a :: seen) k hmem (by simp [hseen, hak]))

/-- Helper: every parsed row lands in the group keyed by its own
`sample_id`. -/
theorem mem_sampleGroups_self (rows : List CSVRow) (r : CSVRow) (hr : r ∈ rows) :
    ∃ g ∈ sampleGroups rows, r ∈ g.2 := by
  refine ⟨(r.sample_id, rows.filter (fun x => x.sample_id == r.sample_id)), ?_, ?_⟩
  · exact List.mem_map.mpr ⟨r.sample_id,
      keysAux_complete _ [] r.sample_id (List.mem_map_of_mem _ hr) (by simp), rfl⟩
  · exact List.mem_filter.mpr ⟨hr, by simp⟩

/-- C5 (amended): the parsing step silently discards the blank lines and
exactly those data rows whose comma-separated value count is below the
header count; no filtering on `sample_id` or `species` happens — every kept
row (including rows with empty `sample_id`/`species`) is placed in a sample
group keyed by its own `sample_id`. -/
theorem c5_parseCSV_discards_short_rows (text : String) :
    parseCSV text =
      (if (csvLines text).length < 2 then [] else
        ((csvLines text).tail.filter
          (fun l => (csvHeaders text).length ≤ (jsSplit ',' l).length)).map
          (fun l => mkRow (csvHeaders text) (jsSplit ',' l))) ∧
    ∀ r ∈ parseCSV text, ∃ g ∈ sampleGroups (parseCSV text), r ∈ g.2 := by
  constructor
  · by_cases h : (csvLines text).length < 2
    · simp [parseCSV, h]
    · simp [parseCSV, h, parseCSVRows_eq_filter_map]
  · intro r hr
    exact mem_sampleGroups_self _ r hr

/-- Witness for C5 (amended): the kept empty-fields row of `csvC5a` indeed
lands in a group — instantiating the theorem at a concrete upload. -/
theorem c5_witness :
    ∃ g ∈ sampleGroups (parseCSV csvC5a),
      (⟨some "", some "", some "", some "", some "", some "", some "", some ""⟩ : CSVRow) ∈ g.2 := by
  exact (c5_parseCSV_discards_short_rows csvC5a).2
    ⟨some "", some "", some "", some "", some "", some "", some "", some ""⟩ (by decide)

/-! ## Detection-loop lemmas (shared by C7 and C10) -/

/-- The detection loop over a concatenation processes the two parts in
sequence, threading store, errors and counter. -/
theorem processDetections_append (key : Option String) (rid : Nat)
    (xs ys : List CSVRow) (st : Store) (errs : List String) (da : Nat) :
    processDetections key rid (xs ++ ys) st errs da =
      (fun acc : Store × List String × Nat =>
        processDetections key rid ys acc.1 acc.2.1 acc.2.2)
        (processDetections key rid xs st errs da) := by
  induction xs generalizing st errs da with
  | nil => rfl
  | cons r t ih =>
    rcases hpd : processDetection key rid r st with ⟨st', e, added⟩
    simp only [List.cons_append, processDetections, hpd]
    exact ih _ _ _

/-- One detection step never touches the species lookup table. -/
theorem processDetection_species (key : Option String) (rid : Nat)
    (row : CSVRow) (st : Store) :
    ((processDetection key rid row st).1).species = st.species := by
  simp only [processDetection]
  split
  · rfl
  · split <;> rfl

/-- The whole detection loop never touches the species lookup table. -/
theorem processDetections_species (key : Option String) (rid : Nat)
    (l : List CSVRow) (st : Store) (errs : List String) (da : Nat) :
    ((processDetections key rid l st errs da).1).species = st.species := by
  induction l generalizing st errs da with
  | nil => rfl
  | cons r t ih =>
    rcases hpd : processDetection key rid r st with ⟨st', e, added⟩
    have hsp := processDetection_species key rid r st
    rw [hpd] at hsp
    simp only [processDetections, hpd]
    rw [ih, hsp]

/-! ## C7 — unknown species -/

/-- C7 counterexample: a detection row whose species (`Nosuch`) has no
match in the lookup table but whose `read_count` does not parse is rejected
with the read-count error, not with the claimed
`25_01: Unknown species Nosuch` error. -/
theorem c7_counterexample :
    storePS.species.filter (fun sp => sp.species_name == "Nosuch") = [] ∧
    processDetection (some "25_01") 1
        ⟨some "25_01", some "a", some "b", some "c", some "d",
          some "Nosuch", some "abc", some "e"⟩ storePS =
      (storePS, some "25_01: Invalid read count for Nosuch", false) ∧
    ("25_01: Invalid read count for Nosuch" : String) ≠ "25_01: Unknown species Nosuch" := by
  decide

/-- C7 (amended): for every detection row whose `read_count` parses but
whose species has no exact-name match in the lookup table, the loop records
exactly one `Unknown species` error and creates no detection row, and the
remaining rows of the group are processed exactly as if the bad row were
absent (same store evolution and same counter, with the one error spliced
in). -/
theorem c7_unknown_species (key : Option String) (routeId : Nat)
    (xs ys : List CSVRow) (row : CSVRow) (st : Store)
    (errs : List String) (da : Nat) (n : Int)
    (hrc : jsParseIntOpt row.read_count = some n)
    (hsp : st.species.filter (fun sp =>
        match row.species with
        | some s => sp.species_name == s
        | none => false) = []) :
    processDetections key routeId (xs ++ row :: ys) st errs da =
      (fun acc : Store × List String × Nat =>
        processDetections key routeId ys acc.1
          (acc.2.1 ++ [optStr key ++ ": Unknown species " ++ optStr row.species]) acc.2.2)
        (processDetections key routeId xs st errs da) := by
  rw [processDetections_append]
  rcases hacc : processDetections key routeId xs st errs da with ⟨st1, errs1, da1⟩
  have hsp1 : st1.species = st.species := by
    have := processDetections_species key routeId xs st errs da
    rw [hacc] at this
    exact this
  have hbad : processDetection key routeId row st1 =
      (st1, some (optStr key ++ ": Unknown species " ++ optStr row.species), false) := by
    simp only [processDetection, hrc, hsp1, hsp]
  simp only [processDetections, hbad]
  simp [Option.toList]

/-- Witness for C7 (amended): a concrete group where the middle row names
the unknown species `Nosuch` and the surrounding rows are processed
normally — instantiating the theorem. -/
theorem c7_witness :
    processDetections (some "25_01") 1
        ([⟨some "25_01", none, none, none, none, some "Puccinia striiformis", some "10", none⟩] ++
          ⟨some "25_01", none, none, none, none, some "Nosuch", some "5", none⟩ ::
          [⟨some "25_01", none, none, none, none, some "Puccinia striiformis", some "20", none⟩])
        storePS [] 0 =
      (fun acc : Store × List String × Nat =>
        processDetections (some "25_01") 1
          [⟨some "25_01", none, none, none, none, some "Puccinia striiformis", some "20", none⟩]
          acc.1 (acc.2.1 ++ ["25_01: Unknown species Nosuch"]) acc.2.2)
        (processDetections (some "25_01") 1
          [⟨some "25_01", none, none, none, none, some "Puccinia striiformis", some "10", none⟩]
          storePS [] 0) := by
  exact c7_unknown_species (some "25_01") 1 _ _
    ⟨some "25_01", none, none, none, none, some "Nosuch", some "5", none⟩
    storePS [] 0 5 (by decide) (by decide)

/-! ## C10 — read_count validation semantics -/

/-- Helper: the `Unknown species` and `Invalid read count` error strings
never coincide (their fixed middles have different lengths). -/
theorem unknown_ne_invalid_msg (k sp : Option String) :
    optStr k ++ ": Unknown species " ++ optStr sp ≠
      optStr k ++ ": Invalid read count for " ++ optStr sp := by
  intro h
  have hlen := congrArg String.length h
  have h1 : (": Unknown species " : String).length = 18 := rfl
  have h2 : (": Invalid read count for " : String).length = 25 := rfl
  simp only [String.length_append, h1, h2] at hlen
  omega

/-- C10: the `read_count` validation accepts exactly the strings whose JS
`parseInt` result is not `NaN`: (1) a non-parsing value is rejected with
the invalid-read-count error and nothing stored; (2) a parsing value with a
matching species is upserted, whatever the sign; (3) a row rejected with the
invalid-read-count error necessarily had a non-parsing `read_count`;
(4) `parseInt` accepts `"-5"` as `-5` and `"12abc"` as `12` and rejects
`"abc"`; (5) the concrete rows are stored with `read_count` `-5` and `12`
respectively, despite the contract's non-negative-integer declaration. -/
theorem c10_read_count_validation :
    (∀ (key : Option String) (routeId : Nat) (row : CSVRow) (st : Store),
      jsParseIntOpt row.read_count = none →
        processDetection key routeId row st =
          (st, some (optStr key ++ ": Invalid read count for " ++ optStr row.species), false)) ∧
    (∀ (key : Option String) (routeId : Nat) (row : CSVRow) (st : Store) (n : Int) (p : Species),
      jsParseIntOpt row.read_count = some n →
        st.species.filter (fun sp =>
          match row.species with
          | some s => sp.species_name == s
          | none => false) = [p] →
        processDetection key routeId row st =
          ({ st with detections := upsertDetection routeId p.id n st.detections }, none, true)) ∧
    (∀ (key : Option String) (routeId : Nat) (row : CSVRow) (st : Store),
      (processDetection key routeId row st).2.1 =
          some (optStr key ++ ": Invalid read count for " ++ optStr row.species) →
        jsParseIntOpt row.read_count = none) ∧
    (jsParseInt "-5" = some (-5) ∧ jsParseInt "12abc" = some 12 ∧ jsParseInt "abc" = none) ∧
    (processDetection (some "k") 1
        ⟨some "k", none, none, none, none, some "Puccinia striiformis", some "-5", none⟩
        storePS =
      ({ storePS with detections := [⟨1, 1, -5⟩] }, none, true) ∧
     processDetection (some "k") 1
        ⟨some "k", none, none, none, none, some "Puccinia striiformis", some "12abc", none⟩
        storePS =
      ({ storePS with detections := [⟨1, 1, 12⟩] }, none, true)) := by
  refine ⟨?_, ?_, ?_, by decide, by decide⟩
  · intro key routeId row st h
    simp only [processDetection, h]
  · intro key routeId row st n p hrc hfil
    simp only [processDetection, hrc, hfil]
  · intro key routeId row st h
    by_contra hne
    obtain ⟨n, hn⟩ : ∃ n, jsParseIntOpt row.read_count = some n := by
      cases hx : jsParseIntOpt row.read_count with
      | none => exact absurd hx hne
      | some m => exact ⟨m, rfl⟩
    cases hfil : st.species.filter (fun sp =>
        match row.species with
        | some s => sp.species_name == s
        | none => false) with
    | nil =>
      simp only [processDetection, hn, hfil] at h
      exact unknown_ne_invalid_msg key row.species (Option.some.inj h)
    | cons p ps =>
      cases ps with
      | nil =>
        simp only [processDetection, hn, hfil] at h
        exact Option.noConfusion h
      | cons q qs =>
        simp only [processDetection, hn, hfil] at h
        exact unknown_ne_invalid_msg key row.species (Option.some.inj h)

/-- Witness for C10: a concrete non-numeric `read_count` is rejected with
the invalid-read-count error — instantiating the first component of the
theorem. -/
theorem c10_witness :
    processDetection (some "k") 1
        ⟨some "k", none, none, none, none, some "X", some "abc", none⟩ storePS =
      (storePS, some "k: Invalid read count for X", false) := by
  exact c10_read_count_validation.1 (some "k") 1
    ⟨some "k", none, none, none, none, some "X", some "abc", none⟩ storePS (by decide)

/-! ## C9 — success flag of the returned summary -/

/-- Helper: a column name present in the header list has a last index. -/
theorem lastIdxAux_isSome (f : String) (l : List String) :
    ∀ i, f ∈ l → ∃ j, lastIdxAux f l i = some j := by
  induction l with
  | nil => intro i h; cases h
  | cons a t ih =>
    intro i h
    simp only [lastIdxAux]
    by_cases ha : a == f
    · rw [if_pos ha]
      cases hx : lastIdxAux f t (i + 1) with
      | none => exact ⟨i, rfl⟩
      | some j => exact ⟨j, rfl⟩
    · rw [if_neg ha]
      have hft : f ∈ t := by
        rcases List.mem_cons.mp h with rfl | hmem
        · exact absurd (by simp) ha
        · exact hmem
      exact ih (i + 1) hft

/-- Helper: `getField` is defined whenever the header contains the column. -/
theorem getField_isSome (headers values : List String) (f : String)
    (hf : f ∈ headers) : ∃ s, getField headers values f = some s := by
  obtain ⟨j, hj⟩ := lastIdxAux_isSome f headers 0 hf
  exact ⟨jsTrim (values.getD j ""), by simp [getField, lastIdx, hj]⟩

/-- Helper: every parsed row has defined coordinate and date fields when the
header row names those columns. -/
theorem parseCSV_fields_some (text : String) (r : CSVRow)
    (hr : r ∈ parseCSV text)
    (hsp : "start_point" ∈ csvHeaders text)
    (hep : "end_point" ∈ csvHeaders text)
    (hcd : "collection_date" ∈ csvHeaders text) :
    r.start_point ≠ none ∧ r.end_point ≠ none ∧ r.collection_date ≠ none := by
  by_cases hlen : (csvLines text).length < 2
  · rw [parseCSV, if_pos hlen] at hr
    cases hr
  · rw [parseCSV, if_neg hlen, parseCSVRows_eq_filter_map] at hr
    obtain ⟨l, _, hl⟩ := List.mem_map.mp hr
    subst hl
    obtain ⟨s1, hs1⟩ := getField_isSome (csvHeaders text) (jsSplit ',' l) "start_point" hsp
    obtain ⟨s2, hs2⟩ := getField_isSome (csvHeaders text) (jsSplit ',' l) "end_point" hep
    obtain ⟨s3, hs3⟩ := getField_isSome (csvHeaders text) (jsSplit ',' l) "collection_date" hcd
    exact ⟨by simp [mkRow, hs1], by simp [mkRow, hs2], by simp [mkRow, hs3]⟩

/-- Helper: a first-seen key comes from the underlying key list. -/
theorem keysAux_sound (l : List (Option String)) :
    ∀ seen k, k ∈ keysAux seen l → k ∈ l := by
  induction l with
  | nil => intro seen k h; cases h
  | cons a t ih =>
    intro seen k h
    simp only [keysAux] at h
    by_cases ha : a ∈ seen
    · rw [if_pos ha] at h
      exact List.mem_cons_of_mem _ (ih seen k h)
    · rw [if_neg ha] at h
      rcases List.mem_cons.mp h with rfl | hmem
      · exact List.mem_cons_self _ _
      · exact List.mem_cons_of_mem _ (ih _ k hmem)

/-- Helper: every sample group is non-empty and consists of parsed rows. -/
theorem sampleGroups_sound (rows : List CSVRow) (g : Option String × List CSVRow)
    (hg : g ∈ sampleGroups rows) :
    g.2 ≠ [] ∧ ∀ r ∈ g.2, r ∈ rows := by
  obtain ⟨k, hk, rfl⟩ := List.mem_map.mp hg
  constructor
  · have hkl : k ∈ rows.map (·.sample_id) := keysAux_sound _ [] k hk
    obtain ⟨r, hr, hrk⟩ := List.mem_map.mp hkl
    intro hnil
    have hnil' : rows.filter (fun x => x.sample_id == k) = [] := hnil
    have : r ∈ rows.filter (fun x => x.sample_id == k) :=
      List.mem_filter.mpr ⟨hr, by simp [hrk]⟩
    rw [hnil'] at this
    cases this
  · intro r hr
    exact (List.mem_filter.mp hr).1

/-- Helper: a group whose rows all carry coordinate and date fields is
processed without a thrown `TypeError`. -/
theorem processGroup_inl (fn : String) (fs : Nat) (uid key : Option String)
    (grows : List CSVRow) (st : Store)
    (hne : grows ≠ [])
    (h : ∀ r ∈ grows, r.start_point ≠ none ∧ r.end_point ≠ none ∧ r.collection_date ≠ none) :
    ∃ out, processGroup fn fs uid key grows st = .inl out := by
  cases grows with
  | nil => exact absurd rfl hne
  | cons r rs =>
    obtain ⟨h1, h2, h3⟩ := h r (List.mem_cons_self r rs)
    rcases hsp : r.start_point with _ | sp
    · exact absurd hsp h1
    rcases hep : r.end_point with _ | ep
    · exact absurd hep h2
    rcases hcd : r.collection_date with _ | cd
    · exact absurd hcd h3
    simp only [processGroup, List.headD, hsp, hep, hcd]
    cases hc1 : parseCoordinates sp with
    | none => exact ⟨_, rfl⟩
    | some sc =>
      cases hc2 : parseCoordinates ep with
      | none => exact ⟨_, rfl⟩
      | some ec =>
        cases key with
        | none => exact ⟨_, rfl⟩
        | some sid =>
          cases hfil : st.routes.filter (fun x => x.sample_id == some sid) with
          | nil => exact ⟨_, rfl⟩
          | cons a l =>
            cases l with
            | nil => exact ⟨_, rfl⟩
            | cons b l2 => exact ⟨_, rfl⟩

/-- Helper: a group list all of whose groups are non-empty with defined
fields is folded without a thrown `TypeError`. -/
theorem processGroupsAux_inl (fn : String) (fs : Nat) (uid : Option String)
    (groups : List (Option String × List CSVRow)) :
    ∀ acc : List String × Nat × Nat × Store,
    (∀ g ∈ groups, g.2 ≠ [] ∧
      ∀ r ∈ g.2, r.start_point ≠ none ∧ r.end_point ≠ none ∧ r.collection_date ≠ none) →
    ∃ out, processGroupsAux fn fs uid groups acc = .inl out := by
  induction groups with
  | nil => intro acc _; exact ⟨acc, rfl⟩
  | cons g rest ih =>
    intro acc h
    rcases acc with ⟨errs, rp, da, st⟩
    rcases g with ⟨k, gr⟩
    obtain ⟨hne, hfields⟩ := h (k, gr) (List.mem_cons_self _ _)
    obtain ⟨⟨gerrs, grp, gda, st'⟩, hout⟩ := processGroup_inl fn fs uid k gr st hne hfields
    simp only [processGroupsAux, hout]
    exact ih _ (fun g hg => h g (List.mem_cons_of_mem _ hg))

/-- C9: for every upload that parses to at least one row and whose header
names the contract's columns, the returned summary's `success` flag is true
iff the number of accumulated error strings is strictly below the number of
parsed data rows. -/
theorem c9_success_iff (text fn : String) (fs : Nat) (uid : Option String) (st : Store)
    (hrows : parseCSV text ≠ [])
    (h1 : "sample_id" ∈ csvHeaders text) (h2 : "start_name" ∈ csvHeaders text)
    (h3 : "start_point" ∈ csvHeaders text) (h4 : "end_name" ∈ csvHeaders text)
    (h5 : "end_point" ∈ csvHeaders text) (h6 : "species" ∈ csvHeaders text)
    (h7 : "read_count" ∈ csvHeaders text) (h8 : "collection_date" ∈ csvHeaders text) :
    ((handleUpload text fn fs uid st).1.success = true ↔
      (handleUpload text fn fs uid st).1.errors.length < (parseCSV text).length) := by
  have hgroups : ∀ g ∈ sampleGroups (parseCSV text), g.2 ≠ [] ∧
      ∀ r ∈ g.2, r.start_point ≠ none ∧ r.end_point ≠ none ∧ r.collection_date ≠ none := by
    intro g hg
    obtain ⟨hne, hsub⟩ := sampleGroups_sound _ g hg
    exact ⟨hne, fun r hr => parseCSV_fields_some text r (hsub r hr) h3 h5 h8⟩
  obtain ⟨⟨errs, rp, da, st'⟩, hout⟩ :=
    processGroupsAux_inl fn fs uid (sampleGroups (parseCSV text)) ([], 0, 0, st) hgroups
  have hempty : (parseCSV text).isEmpty = false := by
    cases hx : parseCSV text with
    | nil => exact absurd hx hrows
    | cons a l => rfl
  simp only [handleUpload, hempty, Bool.false_eq_true, if_false, hout]
  simp [decide_eq_true_iff]

/-- Witness for C9: the concrete scenario upload has one error against one
parsed row, so `success` is false — instantiating the theorem. -/
theorem c9_witness :
    ((handleUpload csvC1 "f.csv" 100 (some "u1") storePS).1.success = true ↔
      (handleUpload csvC1 "f.csv" 100 (some "u1") storePS).1.errors.length <
        (parseCSV csvC1).length) := by
  exact c9_success_iff csvC1 "f.csv" 100 (some "u1") storePS (by decide)
    (by decide) (by decide) (by decide) (by decide) (by decide) (by decide)
    (by decide) (by decide)

/-! ## C8 — login rate limiting -/

/-- Helper: `rlSet` updates what `rlLookup` sees. -/
theorem rlLookup_rlSet (ip : String) (r : RLRec) (st : RLState) :
    rlLookup ip (rlSet ip r st) = some r := by
  induction st with
  | nil => simp [rlSet, rlLookup, List.find?]
  | cons p ps ih =>
    by_cases h : p.1 == ip
    · simp [rlSet, h, rlLookup, List.find?]
    · simp only [rlSet, h, if_false]
      simpa [rlLookup, List.find?, h] using ih

/-- Helper: from a state holding `(c, R)` for `ip`, a run of further
attempts all timed inside the window is fully allowed as long as the count
stays within `MAX_ATTEMPTS`, and the count advances accordingly. -/
theorem rlRun_within_window (ip : String) (ts : List Int) :
    ∀ (st : RLState) (c : Nat) (R : Int),
      rlLookup ip st = some ⟨c, R⟩ →
      (∀ t ∈ ts, t ≤ R) →
      c + ts.length ≤ MAX_ATTEMPTS →
      (rlRun ip ts st).1 = List.replicate ts.length true ∧
        rlLookup ip (rlRun ip ts st).2 = some ⟨c + ts.length, R⟩ := by
  induction ts with
  | nil =>
    intro st c R hl _ _
    simpa [rlRun] using hl
  | cons t ts ih =>
    intro st c R hl hin hcnt
    have htR : ¬ R < t := by
      have := hin t (List.mem_cons_self t ts)
      omega
    have hlt : ¬ MAX_ATTEMPTS ≤ c := by
      have := ts.length
      simp only [List.length_cons] at hcnt
      omega
    have hstep : checkRateLimit ip t st = (true, rlSet ip ⟨c + 1, R⟩ st) := by
      simp [checkRateLimit, hl, htR, hlt]
    have hnext := ih (rlSet ip ⟨c + 1, R⟩ st) (c + 1) R (rlLookup_rlSet ip _ st)
      (fun x hx => hin x (List.mem_cons_of_mem _ hx))
      (by simp only [List.length_cons] at hcnt; omega)
    rcases hrun : rlRun ip ts (rlSet ip ⟨c + 1, R⟩ st) with ⟨bs, st2⟩
    rw [hrun] at hnext
    constructor
    · simp only [rlRun, hstep, hrun, List.length_cons, List.replicate_succ]
      exact congrArg (true :: ·) hnext.1
    · simp only [rlRun, hstep, hrun, List.length_cons]
      have h2 : rlLookup ip st2 = some ⟨c + 1 + ts.length, R⟩ := hnext.2
      have heq : c + 1 + ts.length = c + (ts.length + 1) := by omega
      rw [heq] at h2
      exact h2

/-- C8: from a state with no record for the client address, ten attempts
all timed inside the first attempt's 15-minute window pass the rate-limit
check; an eleventh attempt inside the window is answered `rateLimited`
even with correct credentials (before any credential check); and an
attempt after the window has elapsed succeeds again with the same correct
credentials. -/
theorem c8_rate_limit_window (rl0 : RLState) (ip : String) (t1 : Int)
    (rest : List Int) (t11 t12 : Int) (db : AuthDB) (e p : String) (u : UserRec)
    (compare : String → String → Bool) (tok : String)
    (h0 : rlLookup ip rl0 = none)
    (hlen : rest.length = 9)
    (hin : ∀ t ∈ rest, t ≤ t1 + WINDOW_MS)
    (h11 : t11 ≤ t1 + WINDOW_MS)
    (h12 : t1 + WINDOW_MS < t12)
    (he : e ≠ "") (hp : p ≠ "")
    (hu : db.users.filter (fun x => x.email == jsToLower e && x.is_active) = [u])
    (hcmp : compare p u.password_hash = true) :
    (rlRun ip (t1 :: rest) rl0).1 = List.replicate 10 true ∧
    (login db (rlRun ip (t1 :: rest) rl0).2 ip (some e) (some p) compare tok t11).1 =
      .rateLimited ∧
    (login db (rlRun ip (t1 :: rest) rl0).2 ip (some e) (some p) compare tok t12).1 =
      .success u.id u.email u.role u.full_name tok := by
  have hstep1 : checkRateLimit ip t1 rl0 = (true, rlSet ip ⟨1, t1 + WINDOW_MS⟩ rl0) := by
    simp [checkRateLimit, h0]
  have hrest := rlRun_within_window ip rest (rlSet ip ⟨1, t1 + WINDOW_MS⟩ rl0) 1
    (t1 + WINDOW_MS) (rlLookup_rlSet ip _ rl0) hin (by rw [hlen]; decide)
  rcases hrun : rlRun ip rest (rlSet ip ⟨1, t1 + WINDOW_MS⟩ rl0) with ⟨bs, stF⟩
  rw [hrun] at hrest
  have hall : (rlRun ip (t1 :: rest) rl0) = (true :: bs, stF) := by
    simp only [rlRun, hstep1, hrun]
  have hlookF : rlLookup ip stF = some ⟨10, t1 + WINDOW_MS⟩ := by
    have := hrest.2
    rw [hlen] at this
    exact this
  refine ⟨?_, ?_, ?_⟩
  · rw [hall]
    have hbs : bs = List.replicate rest.length true := hrest.1
    rw [hbs, hlen]
    rfl
  · rw [hall]
    have hcheck : checkRateLimit ip t11 stF = (false, stF) := by
      have hnotlt : ¬ (t1 + WINDOW_MS < t11) := by omega
      simp [checkRateLimit, hlookF, hnotlt, MAX_ATTEMPTS]
    simp [login, hcheck]
  · rw [hall]
    have hcheck : checkRateLimit ip t12 stF =
        (true, rlSet ip ⟨1, t12 + WINDOW_MS⟩ stF) := by
      simp [checkRateLimit, hlookF, h12]
    simp [login, hcheck, he, hp, hu, hcmp]

/-- Witness for C8: the concrete run — empty limiter state, ten attempts at
time 0, the eleventh at time 5 rejected despite correct credentials, and an
attempt just past the window succeeding — instantiating the theorem. -/
theorem c8_witness :
    (rlRun "1.2.3.4" (0 :: [0, 0, 0, 0, 0, 0, 0, 0, 0]) []).1 = List.replicate 10 true ∧
    (login ⟨[], [⟨"u1", "a@b.c", .admin, true, "pw", "N", none⟩]⟩
        (rlRun "1.2.3.4" (0 :: [0, 0, 0, 0, 0, 0, 0, 0, 0]) []).2 "1.2.3.4"
        (some "A@b.c") (some "pw") (fun a b => a == b) "tok" 5).1 = .rateLimited ∧
    (login ⟨[], [⟨"u1", "a@b.c", .admin, true, "pw", "N", none⟩]⟩
        (rlRun "1.2.3.4" (0 :: [0, 0, 0, 0, 0, 0, 0, 0, 0]) []).2 "1.2.3.4"
        (some "A@b.c") (some "pw") (fun a b => a == b) "tok" 900001).1 =
      .success "u1" "a@b.c" .admin "N" "tok" := by
  exact c8_rate_limit_window [] "1.2.3.4" 0 [0, 0, 0, 0, 0, 0, 0, 0, 0] 5 900001
    ⟨[], [⟨"u1", "a@b.c", .admin, true, "pw", "N", none⟩]⟩ "A@b.c" "pw"
    ⟨"u1", "a@b.c", .admin, true, "pw", "N", none⟩ (fun a b => a == b) "tok"
    (by decide) (by decide) (by decide) (by decide) (by decide) (by decide)
    (by decide) (by decide) (by decide)
